import Mathlib

/-!
Shallow embedding of the ray-casting renderer in `src/include/Render.hpp`
(`class Render`: `myCos`, `calcColor`, `renderImageCPU`, `renderImageTBB`,
`renderImage`), together with the external collaborators it consumes
(4-component vectors with dot/cross3/norm/normalize, colors, scene entities,
and the image sink), and theorems settling the specification claims.

C++ `double` arithmetic is modelled by the real numbers `ℝ`; C++ `int`
arithmetic by `ℤ` (all divisions in the program have non-negative operands,
where C++ truncating division agrees with Lean's `/` on `ℤ`);
`std::pow : double → double → double` by `Real.rpow` (written `x ^ y`).
-/

/-- Modelled from the spec: the external vector capability (Eigen
`Vector4d`): a 4-component homogeneous vector with dot product, 3D cross
product, norm and normalization (spec section 2, "Vector/Geometry
primitives"). -/
structure Vec4 where
  x : ℝ
  y : ℝ
  z : ℝ
  w : ℝ

namespace Vec4

instance : Add Vec4 :=
  ⟨fun a b => ⟨a.x + b.x, a.y + b.y, a.z + b.z, a.w + b.w⟩⟩

instance : Sub Vec4 :=
  ⟨fun a b => ⟨a.x - b.x, a.y - b.y, a.z - b.z, a.w - b.w⟩⟩

instance : SMul ℝ Vec4 :=
  ⟨fun r v => ⟨r * v.x, r * v.y, r * v.z, r * v.w⟩⟩

/-- Eigen `Vector4d::dot`: the full 4-component dot product. -/
def dot (a b : Vec4) : ℝ :=
  a.x * b.x + a.y * b.y + a.z * b.z + a.w * b.w

/-- Eigen `Vector4d::norm`: Euclidean norm of all 4 components. -/
noncomputable def norm (v : Vec4) : ℝ :=
  Real.sqrt (v.dot v)

/-- Eigen `Vector4d::normalized`: the vector divided by its norm. -/
noncomputable def normalized (v : Vec4) : Vec4 :=
  ⟨v.x / v.norm, v.y / v.norm, v.z / v.norm, v.w / v.norm⟩

/-- Eigen `Vector4d::cross3`: 3D cross product of the x,y,z components,
with the 4th component of the result set to 0. -/
def cross3 (a b : Vec4) : Vec4 :=
  ⟨a.y * b.z - a.z * b.y, a.z * b.x - a.x * b.z, a.x * b.y - a.y * b.x, 0⟩

end Vec4

/-- Modelled from the spec: `Color` is a triple of floating-point channel
intensities supporting scalar multiplication and component-wise
addition/multiplication (spec section 3, "Color"). -/
structure Color where
  r : ℝ
  g : ℝ
  b : ℝ

namespace Color

instance : Add Color :=
  ⟨fun a b => ⟨a.r + b.r, a.g + b.g, a.b + b.b⟩⟩

instance : Mul Color :=
  ⟨fun a b => ⟨a.r * b.r, a.g * b.g, a.b * b.b⟩⟩

instance : SMul ℝ Color :=
  ⟨fun s c => ⟨s * c.r, s * c.g, s * c.b⟩⟩

/-- The all-zero color, used as the neutral element when summing light
contributions. -/
def zero : Color := ⟨0, 0, 0⟩

/-- Sum of a list of colors, folded left to right from zero. -/
def sumColors (l : List Color) : Color :=
  l.foldl (· + ·) zero

end Color

/-- Modelled from the spec: a point light with a world position and a
color/intensity (spec section 3, "Light"; `Structs.hpp` is not under
`src/`). -/
structure Light where
  pos : Vec4
  color : Color

/-- Modelled from the spec: the camera holds a world position, a target
point defining the screen center, an "up" direction and a field-of-view
angle in degrees (spec section 3, "Camera"; `Structs.hpp` is not under
`src/`). -/
structure Camera where
  pos : Vec4
  screenCenter : Vec4
  up : Vec4
  fov : ℝ

/-- A ray: origin point plus direction vector (spec section 3, "Ray"). -/
structure Ray where
  origin : Vec4
  dir : Vec4

/-- Modelled from the spec: a scene sphere as consumed by the render core
(`Obj.hpp` is not under `src/`): it exposes an albedo color `getColor`, a
surface-normal function `normalVector`, and an intersection test
`intersection` returning a parametric distance paired with an optional
section point, queried exactly as at `Render.hpp:124-131` (spec sections 3
and 6, "Scene object capability"). -/
structure Sphere where
  getColor : Color
  normalVector : Vec4 → Vec4
  intersection : Ray → ℝ × Option Vec4

namespace Render

/-- Ambient coefficient, `Render.hpp:24`. -/
noncomputable def ka : ℝ := 0.1

/-- Diffuse coefficient, `Render.hpp:25`. -/
noncomputable def kd : ℝ := 0.6

/-- Specular coefficient, `Render.hpp:26`. -/
noncomputable def ks : ℝ := 0.3

/-- Shininess exponent, `Render.hpp:27`. -/
noncomputable def m : ℝ := 8.0

/-- Embedding of `Render::myCos`, `Render.hpp:68-74`: the cosine of the angle between
`a` and `b`, clamped from below at 0 when `cut` is true. -/
noncomputable def myCos (a b : Vec4) (cut : Bool) : ℝ :=
  let cos := a.dot b / a.norm / b.norm
  if cut && decide (cos < 0) then 0 else cos

/-- Embedding of `Render::calcColor`, `Render.hpp:76-93`: Phong-style local shading of a
surface point against a list of lights. -/
noncomputable def calcColor (sectionPoint cameraPos : Vec4)
    (nearestSphere : Sphere) (lights : List Light) : Color :=
  let c := ka • nearestSphere.getColor
  let N := nearestSphere.normalVector sectionPoint
  lights.foldl (fun c light =>
    let L := (light.pos - sectionPoint).normalized
    let R := (2 * myCos N L false) • N - L
    let first := kd * myCos N L true
    let obs := (cameraPos - sectionPoint).normalized
    let second := ks * (myCos obs R true ^ m)
    c + ((first + second) • light.color) * nearestSphere.getColor) c

/-- The per-light contribution accumulated by the loop body of
`Render.hpp:83-91`, factored out of `calcColor` for reasoning:
`(first + second) * light.color * nearestSphere->getColor()` with
`first = kd * myCos(N, L, true)` and
`second = ks * pow(myCos(obs, R, true), m)`. -/
noncomputable def lightTerm (sectionPoint cameraPos : Vec4) (s : Sphere)
    (light : Light) : Color :=
  let N := s.normalVector sectionPoint
  let L := (light.pos - sectionPoint).normalized
  let R := (2 * myCos N L false) • N - L
  let first := kd * myCos N L true
  let obs := (cameraPos - sectionPoint).normalized
  let second := ks * (myCos obs R true ^ m)
  ((first + second) • light.color) * s.getColor

/-- The constant `std::numeric_limits<double>::max()`, the initial value of `z_buffor`
at `Render.hpp:119` and `Render.hpp:172`: `(2 - 2⁻⁵²) · 2¹⁰²³`. -/
noncomputable def dblMax : ℝ := (2 - (1 / 2) ^ (52 : ℕ)) * 2 ^ (1023 : ℕ)

/-- The nearest-hit linear scan of `Render.hpp:119-134` (identical at
`Render.hpp:172-187`): fold over the sphere list keeping the hit with the
strictly smallest distance seen so far, starting from
`z_buffor = std::numeric_limits<double>::max()` and a null nearest-sphere
pointer, modelled as `Option`. -/
noncomputable def findNearest (objs : List Sphere) (ray : Ray) :
    ℝ × Option (Sphere × Vec4) :=
  objs.foldl (fun acc s =>
    let res := s.intersection ray
    match res.2 with
    | some pt => if res.1 < acc.1 then (res.1, some (s, pt)) else acc
    | none => acc) (dblMax, none)

/-- The denominator `width / 2` of the `step` computation at
`Render.hpp:108` and `Render.hpp:159`: C++ `int` division. -/
def stepDenom (width : ℕ) : ℤ := (width : ℤ) / 2

/-- The per-image `step` computed at `Render.hpp:107-108` (identical at
`Render.hpp:158-159`): `std::tan(fov / 2) * centralRay.norm() / (width / 2)`
with `fov` already converted to radians and `width / 2` a C++ `int`
division converted to `double`. -/
noncomputable def stepOf (camera : Camera) (width : ℕ) : ℝ :=
  let centralRay := camera.screenCenter - camera.pos
  let fov := camera.fov * (Real.pi / 180)
  Real.tan (fov / 2) * centralRay.norm / (stepDenom width : ℝ)

/-- The per-pixel ray construction of `Render.hpp:99-117` (identical at
`Render.hpp:150-170`): the per-image screen basis `screenRight`/`screenUp`
and `step`, then the integer pixel offsets `x = i - width / 2`,
`y = j - height / 2`, the point on the screen plane, and the normalized
ray from the camera position through it. -/
noncomputable def rayFor (camera : Camera) (width height : ℕ) (i j : ℕ) : Ray :=
  let centralRay := camera.screenCenter - camera.pos
  let screenRight := (centralRay.cross3 camera.up).normalized
  let screenUp := (screenRight.cross3 centralRay).normalized
  let step := stepOf camera width
  let x : ℤ := (i : ℤ) - (width : ℤ) / 2
  let y : ℤ := (j : ℤ) - (height : ℤ) / 2
  let pointOnScreen :=
    camera.screenCenter + ((x : ℝ) * step) • screenRight + ((y : ℝ) * step) • screenUp
  ⟨camera.pos, (pointOnScreen - camera.pos).normalized⟩

/-- The loop body of `Render.hpp:112-140` (identical at
`Render.hpp:165-194`) for pixel `(i, j)`: generate the ray, resolve the
nearest hit, and on a hit produce the shaded color passed to
`img.setPixel(i, j, ...)`; `none` when no sphere is hit and `setPixel` is
not called. -/
noncomputable def pixelColor (camera : Camera) (objs : List Sphere)
    (lights : List Light) (width height : ℕ) (i j : ℕ) : Option Color :=
  let ray := rayFor camera width height i j
  match (findNearest objs ray).2 with
  | some (s, pt) => some (calcColor pt camera.pos s lights)
  | none => none

end Render

/-- Modelled from the spec: the external image sink (`Bmp.hpp` is not under
`src/`) as a `width × height` grid of pixels read back nowhere by the core;
a cell is `none` while still at the sink's default/background value (spec
sections 3 and 6, "Image sink"). -/
def Image : Type := ℕ → ℕ → Option Color

/-- A fresh image: every pixel still at the sink's default/background
value (`Image img(width, height)` at `Render.hpp:97`). -/
def emptyImage : Image := fun _ _ => none

/-- Modelled from the spec: `img.setPixel(x, y, color)` overwrites exactly
the cell `(x, y)` (spec section 6, "Image sink"). -/
def setPixel (img : Image) (i j : ℕ) (c : Color) : Image :=
  fun a b => if a = i ∧ b = j then some c else img a b

/-- Replay a sequence of `setPixel` calls, in order, on a fresh image. -/
def applyTrace (t : List (ℕ × ℕ × Color)) : Image :=
  t.foldl (fun img e => setPixel img e.1 e.2.1 e.2.2) emptyImage

namespace Render

/-- Embedding of `Render::renderImageCPU`, `Render.hpp:95-144`, as the sequence of
`setPixel(i, j, color)` calls it performs: the outer loop over
`i < width`, the inner loop over `j < height`, and one call per pixel
whose ray hits a sphere. -/
noncomputable def renderTraceCPU (camera : Camera) (objs : List Sphere)
    (lights : List Light) (width height : ℕ) : List (ℕ × ℕ × Color) :=
  (List.range width).flatMap fun i =>
    (List.range height).filterMap fun j =>
      (pixelColor camera objs lights width height i j).map fun c => (i, j, c)

/-- The image produced by `Render::renderImageCPU` (`Render.hpp:95-144`):
the result of replaying its `setPixel` calls on a fresh image. -/
noncomputable def renderImageCPU (camera : Camera) (objs : List Sphere)
    (lights : List Light) (width height : ℕ) : Image :=
  applyTrace (renderTraceCPU camera objs lights width height)

/-- The image produced by `Render::renderImageTBB` (`Render.hpp:146-199`).
The nested `tbb::parallel_for` fork-join loops execute the same per-pixel
body as the CPU version exactly once for every `(i, j)` with `i < width`
and `j < height`, each iteration writing only its own pixel; the final
image therefore holds, at each in-range pixel, the value written by that
pixel's iteration, and the default value elsewhere. -/
noncomputable def renderImageTBB (camera : Camera) (objs : List Sphere)
    (lights : List Light) (width height : ℕ) : Image :=
  fun i j =>
    if i < width ∧ j < height then pixelColor camera objs lights width height i j
    else none

/-- The underlying integer value of `RenderMode::CPU` (`Render.hpp:16-20`,
first enumerator of `enum struct RenderMode`). -/
def RenderModeCPU : ℤ := 0

/-- The underlying integer value of `RenderMode::TBB` (`Render.hpp:16-20`,
second enumerator of `enum struct RenderMode`). -/
def RenderModeTBB : ℤ := 1

end Render

/-- The observable outcome of a `renderImage` call: either the image was
saved to the output path, or an error message was reported on `std::cerr`
and nothing was written. -/
inductive RenderOutcome where
  | saved (path : String) (img : Image)
  | errorReported (msg : String)

namespace Render

/-- Embedding of `Render::renderImage`, `Render.hpp:50-66`: dispatch on the render mode
(modelled by the underlying integer of `enum struct RenderMode`, which a
caller can set to any `int` value by casting); the `default` branch prints
`"Not implemented yet"` to `std::cerr` and returns without rendering or
saving anything. -/
noncomputable def renderImage (camera : Camera) (objs : List Sphere)
    (lights : List Light) (mode : ℤ) (width height : ℕ) (path : String) :
    RenderOutcome :=
  if mode = RenderModeCPU then
    .saved path (renderImageCPU camera objs lights width height)
  else if mode = RenderModeTBB then
    .saved path (renderImageTBB camera objs lights width height)
  else
    .errorReported "Not implemented yet"

end Render

/-- The cosine of the angle between two vectors as the specification
writes it: `dot(a,b) / (|a||b|)`. -/
noncomputable def cosine (a b : Vec4) : ℝ := a.dot b / (a.norm * b.norm)

/-- The per-light Phong contribution as claim C2 states it:
`(kd*cosNL + ks*cosObsR^m) * lightColor * albedo` with `kd = 0.6`,
`ks = 0.3`, `m = 8.0`, `cosNL` the normal-light cosine clamped to be
non-negative, and `cosObsR` the viewer-reflection cosine clamped to be
non-negative. -/
noncomputable def lightTermSpec (sectionPoint cameraPos : Vec4) (s : Sphere)
    (light : Light) : Color :=
  let N := s.normalVector sectionPoint
  let L := (light.pos - sectionPoint).normalized
  let R := (2 * cosine N L) • N - L
  let obs := (cameraPos - sectionPoint).normalized
  ((0.6 * max (cosine N L) 0 + 0.3 * max (cosine obs R) 0 ^ (8 : ℕ)) • light.color)
    * s.getColor

/-- The shading result as claim C2 states it: `ka * albedo` (with
`ka = 0.1`) plus the per-light contributions summed over the lights in
order. -/
noncomputable def shadeSpec (sectionPoint cameraPos : Vec4) (s : Sphere)
    (lights : List Light) : Color :=
  (0.1 : ℝ) • s.getColor
    + Color.sumColors (lights.map (lightTermSpec sectionPoint cameraPos s))

/-- The camera ray as claim C5 states it: origin at the camera position and
direction `normalize(pointOnScreen - pos)`, with
`pointOnScreen = screenCenter + x*step*screenRight + y*step*screenUp`,
integer offsets `x = i - width/2` and `y = j - height/2`, and
`step = tan(fovRad/2) * |centralRay| / (width/2)` where `width/2` in the
denominator is an integer division. -/
noncomputable def generateRay (camera : Camera) (width height : ℕ) (i j : ℕ) :
    Ray :=
  let centralRay := camera.screenCenter - camera.pos
  let screenRight := (centralRay.cross3 camera.up).normalized
  let screenUp := (screenRight.cross3 centralRay).normalized
  let fovRad := camera.fov * (Real.pi / 180)
  let step := Real.tan (fovRad / 2) * centralRay.norm / (((width : ℤ) / 2 : ℤ) : ℝ)
  let x : ℤ := (i : ℤ) - (width : ℤ) / 2
  let y : ℤ := (j : ℤ) - (height : ℤ) / 2
  let pointOnScreen :=
    camera.screenCenter + ((x : ℝ) * step) • screenRight + ((y : ℝ) * step) • screenUp
  { origin := camera.pos, dir := (pointOnScreen - camera.pos).normalized }

/-- A sample world-space point, used to instantiate universally quantified
theorems on concrete scenes. -/
noncomputable def sampleVec : Vec4 := ⟨0, 0, 0, 1⟩

/-- A sample camera looking down the z axis. -/
noncomputable def sampleCamera : Camera :=
  { pos := ⟨0, 0, -5, 1⟩, screenCenter := ⟨0, 0, 0, 1⟩, up := ⟨0, 1, 0, 0⟩, fov := 90 }

/-- A sample sphere whose intersection test always reports a hit at
parametric distance 3. -/
noncomputable def sampleSphereNear : Sphere :=
  { getColor := ⟨1, 1, 1⟩
    normalVector := fun _ => ⟨0, 0, 1, 0⟩
    intersection := fun _ => (3, some ⟨0, 0, 0, 1⟩) }

/-- A sample sphere whose intersection test always reports a hit at
parametric distance 5. -/
noncomputable def sampleSphereFar : Sphere :=
  { getColor := ⟨1, 0, 0⟩
    normalVector := fun _ => ⟨0, 0, 1, 0⟩
    intersection := fun _ => (5, some ⟨0, 0, 2, 1⟩) }

/-- A sample sphere whose intersection test always reports a hit at
parametric distance 3, listed after `sampleSphereNear` to exercise the
equal-distance tie-break. -/
noncomputable def sampleSphereTie : Sphere :=
  { getColor := ⟨0, 1, 0⟩
    normalVector := fun _ => ⟨0, 0, 1, 0⟩
    intersection := fun _ => (3, some ⟨0, 0, 1, 1⟩) }

/-- A sample ray. -/
noncomputable def sampleRay : Ray := ⟨⟨0, 0, -5, 1⟩, ⟨0, 0, 1, 0⟩⟩

/-- A sample red light. -/
noncomputable def sampleLightA : Light := ⟨⟨0, 0, 5, 1⟩, ⟨1, 0, 0⟩⟩

/-- A sample green light. -/
noncomputable def sampleLightB : Light := ⟨⟨5, 0, 0, 1⟩, ⟨0, 1, 0⟩⟩

/-! ### Basic algebra of the modelled vector and color operations -/

@[ext] theorem Color.ext_mk {c d : Color} (hr : c.r = d.r) (hg : c.g = d.g)
    (hb : c.b = d.b) : c = d := by
  cases c; cases d; simp_all

theorem Color.add_def (a b : Color) :
    a + b = ⟨a.r + b.r, a.g + b.g, a.b + b.b⟩ := rfl

theorem Color.add_comm (a b : Color) : a + b = b + a := by
  apply Color.ext_mk <;> simp [Color.add_def] <;> ring

theorem Color.add_assoc (a b c : Color) : a + b + c = a + (b + c) := by
  apply Color.ext_mk <;> simp [Color.add_def] <;> ring

theorem Color.add_zero (a : Color) : a + Color.zero = a := by
  apply Color.ext_mk <;> simp [Color.add_def, Color.zero]

theorem Color.zero_add (a : Color) : Color.zero + a = a := by
  apply Color.ext_mk <;> simp [Color.add_def, Color.zero]

theorem Color.foldl_add_acc (l : List Color) (a b : Color) :
    l.foldl (· + ·) (a + b) = a + l.foldl (· + ·) b := by
  induction l generalizing b with
  | nil => rfl
  | cons x t ih => simp only [List.foldl]; rw [Color.add_assoc, ih]

theorem Color.sumColors_nil : Color.sumColors [] = Color.zero := rfl

theorem Color.sumColors_cons (x : Color) (t : List Color) :
    Color.sumColors (x :: t) = x + Color.sumColors t := by
  show t.foldl (· + ·) (Color.zero + x) = x + t.foldl (· + ·) Color.zero
  rw [Color.zero_add, ← Color.add_zero x, Color.foldl_add_acc, Color.add_zero]

theorem Color.foldl_add_eq {α : Type} (g : α → Color) (l : List α) (c0 : Color) :
    l.foldl (fun c x => c + g x) c0 = c0 + Color.sumColors (l.map g) := by
  induction l generalizing c0 with
  | nil => simp [Color.sumColors_nil, Color.add_zero]
  | cons x t ih =>
      simp only [List.foldl, List.map]
      rw [ih, Color.sumColors_cons, ← Color.add_assoc]

theorem Color.sumColors_perm {l1 l2 : List Color} (h : l1.Perm l2) :
    Color.sumColors l1 = Color.sumColors l2 := by
  induction h with
  | nil => rfl
  | cons x _ ih => rw [Color.sumColors_cons, Color.sumColors_cons, ih]
  | swap x y l =>
      rw [Color.sumColors_cons, Color.sumColors_cons, Color.sumColors_cons,
        Color.sumColors_cons, ← Color.add_assoc, ← Color.add_assoc,
        Color.add_comm y x]
  | trans _ _ ih1 ih2 => rw [ih1, ih2]

/-! ### The shading engine -/

theorem Render.myCos_false_eq (a b : Vec4) :
    Render.myCos a b false = cosine a b := by
  simp [Render.myCos, cosine, div_div]

theorem Render.myCos_true_eq (a b : Vec4) :
    Render.myCos a b true = max (cosine a b) 0 := by
  have h : Render.myCos a b true
      = if cosine a b < 0 then 0 else cosine a b := by
    simp [Render.myCos, cosine, div_div]
  rw [h]
  by_cases hc : cosine a b < 0
  · simp [hc, max_eq_right hc.le]
  · simp [hc, max_eq_left (not_lt.mp hc)]

theorem Render.pow_m_eq (x : ℝ) : x ^ Render.m = x ^ (8 : ℕ) := by
  rw [show Render.m = ((8 : ℕ) : ℝ) by norm_num [Render.m], Real.rpow_natCast]

theorem Render.calcColor_eq (pt cam : Vec4) (s : Sphere) (lights : List Light) :
    Render.calcColor pt cam s lights
      = Render.ka • s.getColor
        + Color.sumColors (lights.map (Render.lightTerm pt cam s)) := by
  have h : Render.calcColor pt cam s lights
      = lights.foldl (fun c light => c + Render.lightTerm pt cam s light)
          (Render.ka • s.getColor) := rfl
  rw [h, Color.foldl_add_eq]

theorem Render.lightTerm_eq_spec (pt cam : Vec4) (s : Sphere) (light : Light) :
    Render.lightTerm pt cam s light = lightTermSpec pt cam s light := by
  simp only [Render.lightTerm, lightTermSpec, Render.kd, Render.ks,
    Render.myCos_false_eq, Render.myCos_true_eq, Render.pow_m_eq]

theorem unitX_norm : Vec4.norm ⟨1, 0, 0, 0⟩ = 1 := by
  simp [Vec4.norm, Vec4.dot]

theorem unitY_norm : Vec4.norm ⟨0, 1, 0, 0⟩ = 1 := by
  simp [Vec4.norm, Vec4.dot]

/-- C2: for every surface point, viewer position, hit sphere and light
list, `calcColor` returns `ka * albedo` plus, summed over the lights in
order, `(kd*cosNL + ks*cosObsR^m) * lightColor * albedo` with `ka = 0.1`,
`kd = 0.6`, `ks = 0.3`, `m = 8.0`, `cosNL` the normal-light cosine clamped
to be non-negative and `cosObsR` the viewer-reflection cosine clamped to be
non-negative; in particular with zero lights the result is exactly
`ka * albedo`. -/
theorem calcColor_matches_phong_spec (pt cam : Vec4) (s : Sphere)
    (lights : List Light) :
    Render.calcColor pt cam s lights = shadeSpec pt cam s lights ∧
    Render.calcColor pt cam s [] = Render.ka • s.getColor := by
  constructor
  · have hmap : Render.lightTerm pt cam s = lightTermSpec pt cam s :=
      funext (Render.lightTerm_eq_spec pt cam s)
    rw [Render.calcColor_eq, hmap]
    simp [shadeSpec, Render.ka]
  · rfl

/-- C3: `myCos` with `cut = false` is the raw, unclamped cosine
`dot(a,b)/(|a||b|)` while `cut = true` clamps it at zero, and for unit
vectors `N`, `L` the reflection vector computed in `calcColor`,
`(2 * myCos(N, L, false)) • N - L`, equals `2*dot(N,L)*N - L` with the
unclamped dot product — the clamping asymmetry between the diffuse term
and the reflection vector. -/
theorem reflection_uses_unclamped_cos :
    (∀ a b : Vec4, Render.myCos a b false = a.dot b / (a.norm * b.norm)) ∧
    (∀ a b : Vec4, Render.myCos a b true = max (a.dot b / (a.norm * b.norm)) 0) ∧
    (∀ N L : Vec4, N.norm = 1 → L.norm = 1 →
      (2 * Render.myCos N L false) • N - L = (2 * N.dot L) • N - L) := by
  refine ⟨?_, ?_, ?_⟩
  · intro a b
    rw [Render.myCos_false_eq, cosine]
  · intro a b
    rw [Render.myCos_true_eq, cosine]
  · intro N L hN hL
    rw [Render.myCos_false_eq, cosine, hN, hL]
    norm_num

/-- Witness for C3: the unit vectors `(1,0,0,0)` and `(0,1,0,0)` satisfy the
unit-norm hypotheses, and the reflection identity holds for them. -/
theorem reflection_uses_unclamped_cos_witness :
    Vec4.norm ⟨1, 0, 0, 0⟩ = 1 ∧ Vec4.norm ⟨0, 1, 0, 0⟩ = 1 ∧
    (2 * Render.myCos ⟨1, 0, 0, 0⟩ ⟨0, 1, 0, 0⟩ false) • (⟨1, 0, 0, 0⟩ : Vec4)
        - ⟨0, 1, 0, 0⟩
      = (2 * Vec4.dot ⟨1, 0, 0, 0⟩ ⟨0, 1, 0, 0⟩) • (⟨1, 0, 0, 0⟩ : Vec4)
        - ⟨0, 1, 0, 0⟩ :=
  ⟨unitX_norm, unitY_norm,
    reflection_uses_unclamped_cos.2.2 _ _ unitX_norm unitY_norm⟩

/-- C8: the shading result is invariant under any permutation of the light
list. -/
theorem calcColor_light_perm_invariant (pt cam : Vec4) (s : Sphere)
    {l1 l2 : List Light} (h : l1.Perm l2) :
    Render.calcColor pt cam s l1 = Render.calcColor pt cam s l2 := by
  rw [Render.calcColor_eq, Render.calcColor_eq]
  exact congrArg (fun S => Render.ka • s.getColor + S)
    (Color.sumColors_perm ((h.map (Render.lightTerm pt cam s))))

/-- Witness for C8: swapping two concrete lights is a permutation and the
shading result on the swapped lists agrees. -/
theorem calcColor_light_perm_invariant_witness :
    List.Perm [sampleLightA, sampleLightB] [sampleLightB, sampleLightA] ∧
    Render.calcColor sampleVec sampleCamera.pos sampleSphereNear
        [sampleLightA, sampleLightB]
      = Render.calcColor sampleVec sampleCamera.pos sampleSphereNear
        [sampleLightB, sampleLightA] :=
  ⟨List.Perm.swap sampleLightB sampleLightA [],
    calcColor_light_perm_invariant _ _ _
      (List.Perm.swap sampleLightB sampleLightA [])⟩

/-! ### The intersection resolver -/

theorem findNearest_aux_le (ray : Ray) (objs : List Sphere)
    (acc : ℝ × Option (Sphere × Vec4)) :
    (objs.foldl (fun acc s =>
      let res := s.intersection ray
      match res.2 with
      | some pt => if res.1 < acc.1 then (res.1, some (s, pt)) else acc
      | none => acc) acc).1 ≤ acc.1 := by
  induction objs generalizing acc with
  | nil => exact le_refl _
  | cons a t ih =>
      simp only [List.foldl]
      refine le_trans (ih _) ?_
      rcases h : (a.intersection ray).2 with _ | pt
      · simp [h]
      · simp only [h]
        split_ifs with hlt
        · exact hlt.le
        · exact le_refl _

theorem findNearest_aux_hit (ray : Ray) (objs : List Sphere)
    (acc : ℝ × Option (Sphere × Vec4)) (s : Sphere) (d : ℝ) (p : Vec4)
    (hs : s ∈ objs) (hint : s.intersection ray = (d, some p)) :
    (objs.foldl (fun acc s =>
      let res := s.intersection ray
      match res.2 with
      | some pt => if res.1 < acc.1 then (res.1, some (s, pt)) else acc
      | none => acc) acc).1 ≤ d := by
  induction objs generalizing acc with
  | nil => cases hs
  | cons a t ih =>
      rcases List.mem_cons.mp hs with rfl | hmem
      · simp only [List.foldl, hint]
        refine le_trans (findNearest_aux_le ray t _) ?_
        split_ifs with hlt
        · exact le_refl _
        · exact not_lt.mp hlt
      · simp only [List.foldl]
        exact ih _ hmem

theorem three_lt_dblMax : (3 : ℝ) < Render.dblMax := by
  norm_num [Render.dblMax]

/-- C4: the nearest-hit scan keeps the minimum hit distance over the whole
list under a strict less-than comparison: the resulting distance is a lower
bound of every hit distance, two spheres hit at distances `d1 < d2` resolve
to the `d1` sphere in either list order, and two spheres hit at the same
distance resolve to the first one in iteration order. -/
theorem nearest_hit_selection :
    (∀ (ray : Ray) (objs : List Sphere) (s : Sphere) (d : ℝ) (p : Vec4),
      s ∈ objs → s.intersection ray = (d, some p) →
      (Render.findNearest objs ray).1 ≤ d) ∧
    (∀ (ray : Ray) (s1 s2 : Sphere) (d1 d2 : ℝ) (p1 p2 : Vec4),
      s1.intersection ray = (d1, some p1) →
      s2.intersection ray = (d2, some p2) →
      d1 < d2 → d1 < Render.dblMax →
      Render.findNearest [s1, s2] ray = (d1, some (s1, p1)) ∧
      Render.findNearest [s2, s1] ray = (d1, some (s1, p1))) ∧
    (∀ (ray : Ray) (s1 s2 : Sphere) (d : ℝ) (p1 p2 : Vec4),
      s1.intersection ray = (d, some p1) →
      s2.intersection ray = (d, some p2) →
      d < Render.dblMax →
      Render.findNearest [s1, s2] ray = (d, some (s1, p1))) := by
  refine ⟨?_, ?_, ?_⟩
  · intro ray objs s d p hs hint
    exact findNearest_aux_hit ray objs _ s d p hs hint
  · intro ray s1 s2 d1 d2 p1 p2 h1 h2 hlt hmax
    constructor
    · simp only [Render.findNearest, List.foldl, h1, h2]
      rw [if_pos hmax, if_neg (by simp; linarith)]
    · simp only [Render.findNearest, List.foldl, h1, h2]
      by_cases hd2 : d2 < Render.dblMax
      · rw [if_pos hd2, if_pos (by simpa using hlt)]
      · rw [if_neg hd2, if_pos (by simpa using hmax)]
  · intro ray s1 s2 d p1 p2 h1 h2 hmax
    simp only [Render.findNearest, List.foldl, h1, h2]
    rw [if_pos hmax, if_neg (by simp)]

/-- Witness for C4: concrete spheres hit at distances 3 and 5 resolve to
the distance-3 sphere in both list orders. -/
theorem nearest_hit_selection_witness :
    sampleSphereNear.intersection sampleRay = (3, some ⟨0, 0, 0, 1⟩) ∧
    (3 : ℝ) < 5 ∧ (3 : ℝ) < Render.dblMax ∧
    Render.findNearest [sampleSphereNear, sampleSphereFar] sampleRay
      = (3, some (sampleSphereNear, ⟨0, 0, 0, 1⟩)) ∧
    Render.findNearest [sampleSphereFar, sampleSphereNear] sampleRay
      = (3, some (sampleSphereNear, ⟨0, 0, 0, 1⟩)) := by
  have h := nearest_hit_selection.2.1 sampleRay sampleSphereNear sampleSphereFar
    3 5 ⟨0, 0, 0, 1⟩ ⟨0, 0, 2, 1⟩ rfl rfl (by norm_num) three_lt_dblMax
  exact ⟨rfl, by norm_num, three_lt_dblMax, h.1, h.2⟩

/-! ### The ray generator -/

/-- C5: for every camera, image size and pixel `(i, j)`, the ray built by
the renderer loop body has origin at the camera position and direction
`normalize(pointOnScreen - pos)` with
`pointOnScreen = screenCenter + x*step*screenRight + y*step*screenUp`,
integer offsets `x = i - width/2`, `y = j - height/2`, and the single step
`tan(fovRad/2) * |centralRay| / (width/2)` (integer division in the
denominator) used for both axes. -/
theorem rayFor_matches_generateRay (camera : Camera) (width height i j : ℕ) :
    Render.rayFor camera width height i j = generateRay camera width height i j :=
  rfl

/-! ### The render driver -/

/-- C7: a render mode other than `CPU` and `TBB` falls into the `default`
branch of `renderImage`: the error is reported on `std::cerr` and nothing
is rendered or written to the output path. -/
theorem invalid_mode_reported_no_file (camera : Camera) (objs : List Sphere)
    (lights : List Light) (mode : ℤ) (width height : ℕ) (path : String)
    (hcpu : mode ≠ Render.RenderModeCPU) (htbb : mode ≠ Render.RenderModeTBB) :
    Render.renderImage camera objs lights mode width height path
      = RenderOutcome.errorReported "Not implemented yet" ∧
    ∀ (p : String) (img : Image),
      Render.renderImage camera objs lights mode width height path
        ≠ RenderOutcome.saved p img := by
  have h : Render.renderImage camera objs lights mode width height path
      = RenderOutcome.errorReported "Not implemented yet" := by
    simp [Render.renderImage, hcpu, htbb]
  refine ⟨h, fun p img hsaved => ?_⟩
  rw [h] at hsaved
  exact RenderOutcome.noConfusion hsaved

/-- Witness for C7: the out-of-range mode value 2 is rejected with the
reported error and no saved file. -/
theorem invalid_mode_reported_no_file_witness :
    (2 : ℤ) ≠ Render.RenderModeCPU ∧ (2 : ℤ) ≠ Render.RenderModeTBB ∧
    Render.renderImage sampleCamera [] [] 2 4 4 "out.bmp"
      = RenderOutcome.errorReported "Not implemented yet" :=
  ⟨by decide, by decide,
    (invalid_mode_reported_no_file sampleCamera [] [] 2 4 4 "out.bmp"
      (by decide) (by decide)).1⟩

/-- C10: the integer divisor `width / 2` of the `step` computation is
nonzero for every `width ≥ 2`, while for `width = 1` it is 0 — so the
`step` computation divides by zero there (the divisor converted to a
floating-point value is exactly 0). -/
theorem stepDenom_zero_only_for_width_one (width : ℕ) (h2 : 2 ≤ width) :
    Render.stepDenom width ≠ 0 ∧ Render.stepDenom 1 = 0 ∧
    ((Render.stepDenom 1 : ℤ) : ℝ) = 0 := by
  refine ⟨?_, by norm_num [Render.stepDenom], by norm_num [Render.stepDenom]⟩
  simp only [Render.stepDenom]
  omega

/-- Witness for C10: width 2 satisfies the hypothesis and yields a nonzero
divisor. -/
theorem stepDenom_zero_only_for_width_one_witness :
    2 ≤ 2 ∧ Render.stepDenom 2 ≠ 0 :=
  ⟨by norm_num, (stepDenom_zero_only_for_width_one 2 (by norm_num)).1⟩

/-! ### Replaying pixel writes -/

theorem foldTrace_single (f : ℕ → ℕ → Option Color) (a h : ℕ) (img : Image)
    (i j : ℕ) :
    ((List.filterMap (fun b => (f a b).map fun c => (a, b, c)) [h]).foldl
        (fun img e => setPixel img e.1 e.2.1 e.2.2) img) i j
      = if i = a ∧ j = h then (f a h).or (img i j) else img i j := by
  rcases hf : f a h with _ | c
  · simp only [List.filterMap_cons, List.filterMap_nil, hf, Option.map_none',
      List.foldl_nil]
    split_ifs <;> simp [hf]
  · simp only [List.filterMap_cons, List.filterMap_nil, hf, Option.map_some',
      List.foldl_cons, List.foldl_nil]
    simp [setPixel, hf]

theorem foldTrace_row (f : ℕ → ℕ → Option Color) (a h : ℕ) (img : Image)
    (i j : ℕ) :
    (((List.range h).filterMap fun b => (f a b).map fun c => (a, b, c)).foldl
        (fun img e => setPixel img e.1 e.2.1 e.2.2) img) i j
      = if i = a ∧ j < h then (f a j).or (img i j) else img i j := by
  induction h with
  | zero => simp
  | succ h ih =>
      rw [List.range_succ, List.filterMap_append, List.foldl_append,
        foldTrace_single, ih]
      by_cases hia : i = a
      · subst hia
        by_cases hjh : j = h
        · subst hjh
          simp
        · by_cases hjlt : j < h
          · have h1 : j < h + 1 := by omega
            simp [hjh, hjlt, h1]
          · have h1 : ¬j < h + 1 := by omega
            simp [hjh, hjlt, h1]
      · simp [hia]

theorem foldTrace_flat (f : ℕ → ℕ → Option Color) (w h : ℕ) (img : Image)
    (i j : ℕ) :
    (((List.range w).flatMap fun a =>
        (List.range h).filterMap fun b => (f a b).map fun c => (a, b, c)).foldl
        (fun img e => setPixel img e.1 e.2.1 e.2.2) img) i j
      = if i < w ∧ j < h then (f i j).or (img i j) else img i j := by
  induction w with
  | zero => simp
  | succ w ih =>
      rw [List.range_succ, List.flatMap_append, List.foldl_append]
      rw [show ([w].flatMap fun a =>
          (List.range h).filterMap fun b => (f a b).map fun c => (a, b, c))
            = (List.range h).filterMap fun b => (f w b).map fun c => (w, b, c)
          from by simp]
      rw [foldTrace_row, ih]
      by_cases hiw : i = w
      · subst hiw
        have h1 : ¬i < i := by omega
        have h2 : i < i + 1 := by omega
        by_cases hjh : j < h
        · simp [h1, h2, hjh]
        · simp [h1, h2, hjh]
      · by_cases hilt : i < w
        · have h1 : i < w + 1 := by omega
          simp [hiw, hilt, h1]
        · have h1 : ¬i < w + 1 := by omega
          simp [hiw, hilt, h1]

theorem applyTrace_flat (f : ℕ → ℕ → Option Color) (w h : ℕ) (i j : ℕ) :
    applyTrace ((List.range w).flatMap fun a =>
        (List.range h).filterMap fun b => (f a b).map fun c => (a, b, c)) i j
      = if i < w ∧ j < h then f i j else none := by
  show (((List.range w).flatMap fun a =>
      (List.range h).filterMap fun b => (f a b).map fun c => (a, b, c)).foldl
      (fun img e => setPixel img e.1 e.2.1 e.2.2) emptyImage) i j = _
  rw [foldTrace_flat]
  split_ifs <;> simp [emptyImage, Option.or_none]

/-- C1: the sequential renderer and the data-parallel renderer compute the
same color for every pixel on identical inputs, so both strategies produce
pixel-for-pixel identical images. -/
theorem renderImageCPU_eq_TBB (camera : Camera) (objs : List Sphere)
    (lights : List Light) (width height : ℕ) (i j : ℕ) :
    Render.renderImageCPU camera objs lights width height i j
      = Render.renderImageTBB camera objs lights width height i j := by
  simp only [Render.renderImageCPU, Render.renderTraceCPU, Render.renderImageTBB]
  rw [applyTrace_flat (Render.pixelColor camera objs lights width height)
    width height i j]

/-- C6: a pixel whose ray hits no sphere never appears in the sequence of
`setPixel` calls, and is left at the image sink's default/background value
by both renderers. -/
theorem miss_leaves_pixel_default (camera : Camera) (objs : List Sphere)
    (lights : List Light) (width height : ℕ) (i j : ℕ)
    (hmiss : (Render.findNearest objs
      (Render.rayFor camera width height i j)).2 = none) :
    (∀ c : Color,
      (i, j, c) ∉ Render.renderTraceCPU camera objs lights width height) ∧
    Render.renderImageCPU camera objs lights width height i j = none ∧
    Render.renderImageTBB camera objs lights width height i j = none := by
  have hpix : Render.pixelColor camera objs lights width height i j = none := by
    simp only [Render.pixelColor]
    rw [hmiss]
  refine ⟨?_, ?_, ?_⟩
  · intro c hc
    obtain ⟨a, _, hfm⟩ := List.mem_flatMap.mp hc
    obtain ⟨b, _, hsome⟩ := List.mem_filterMap.mp hfm
    rcases hmap : Render.pixelColor camera objs lights width height a b with _ | v
    · rw [hmap] at hsome
      cases hsome
    · rw [hmap] at hsome
      simp only [Option.map_some'] at hsome
      injection hsome with htup
      simp only [Prod.mk.injEq] at htup
      obtain ⟨rfl, rfl, rfl⟩ := htup
      rw [hpix] at hmap
      cases hmap
  · simp only [Render.renderImageCPU, Render.renderTraceCPU]
    rw [applyTrace_flat (Render.pixelColor camera objs lights width height)
      width height i j, hpix]
    simp
  · simp [Render.renderImageTBB, hpix]

/-- Witness for C6: with an empty sphere list every ray misses, and pixel
`(0, 0)` of a 2 by 2 render is left at the default value by both
renderers. -/
theorem miss_leaves_pixel_default_witness :
    (Render.findNearest [] (Render.rayFor sampleCamera 2 2 0 0)).2 = none ∧
    Render.renderImageCPU sampleCamera [] [] 2 2 0 0 = none ∧
    Render.renderImageTBB sampleCamera [] [] 2 2 0 0 = none := by
  have h := miss_leaves_pixel_default sampleCamera [] [] 2 2 0 0 rfl
  exact ⟨rfl, h.2.1, h.2.2⟩
